import Mathlib

/-!
Verification of the codec registry and Unicode error-handling subsystem
(`vm/src/codecs.rs`): a shallow embedding of the registry state, the
encoding-name normalizer, codec handles, and the built-in error handlers,
together with proofs of the specified properties.
-/

set_option maxRecDepth 10000

namespace Codecs

/-! ## Name normalizer (`normalize_encoding_name`)

The Rust function scans for the first byte that is a space or an ASCII
uppercase letter; bytes before that offset are kept, and from that offset
onward every space becomes a hyphen and every ASCII uppercase letter is
lowercased (`make_ascii_lowercase` touches only `b'A'..=b'Z'`).  Multi-byte
UTF-8 sequences consist of bytes ≥ 0x80, which the rewrite never touches, so
the byte-level pass is exactly a character-level pass; we embed it on
`List Char`. -/

/-- A character that triggers the rewrite: `' '` or an ASCII uppercase letter. -/
def isTriggerChar (c : Char) : Bool :=
  c == ' ' || (decide (65 ≤ c.toNat) && decide (c.toNat ≤ 90))

/-- The per-character rewrite applied from the first trigger onward:
space becomes a hyphen, ASCII uppercase is lowercased, all else unchanged. -/
def normChar (c : Char) : Char :=
  if c == ' ' then '-'
  else if 65 ≤ c.toNat ∧ c.toNat ≤ 90 then Char.ofNat (c.toNat + 32)
  else c

/-- `normalize_encoding_name` on the character list: characters before the
first trigger are untouched; from the first trigger onward `normChar` is
applied to every character.  If no trigger occurs the input is returned
unchanged. -/
def normalizeList : List Char → List Char
  | [] => []
  | c :: cs =>
    if isTriggerChar c then normChar c :: cs.map normChar
    else c :: normalizeList cs

/-- `normalize_encoding_name` on strings. -/
def normalizeName (s : String) : String :=
  ⟨normalizeList s.data⟩

theorem char_toNat_ofNat_valid (n : Nat) (h : n < 0xd800) :
    (Char.ofNat n).toNat = n := by
  have hv : Nat.isValidChar n := Or.inl h
  simp [Char.ofNat, hv, Char.ofNatAux, Char.toNat, UInt32.toNat, BitVec.toNat_ofNatLt]

theorem isTriggerChar_eq_false_iff (c : Char) :
    isTriggerChar c = false ↔ (c ≠ ' ' ∧ ¬(65 ≤ c.toNat ∧ c.toNat ≤ 90)) := by
  simp only [isTriggerChar, Bool.or_eq_false_iff, beq_eq_false_iff_ne, ne_eq,
    Bool.and_eq_false_iff, decide_eq_false_iff_not]
  constructor
  · rintro ⟨h1, h2⟩
    refine ⟨h1, fun hc => ?_⟩
    rcases h2 with h | h
    · exact h hc.1
    · exact h hc.2
  · rintro ⟨h1, h2⟩
    refine ⟨h1, ?_⟩
    by_cases h65 : 65 ≤ c.toNat
    · right; intro h90; exact h2 ⟨h65, h90⟩
    · left; exact h65

theorem isTriggerChar_normChar (c : Char) : isTriggerChar (normChar c) = false := by
  by_cases hsp : c = ' '
  · subst hsp; decide
  · have hsp' : (c == ' ') = false := by simp [hsp]
    by_cases hup : 65 ≤ c.toNat ∧ c.toNat ≤ 90
    · have hlt : c.toNat + 32 < 0xd800 := by omega
      have htn : (Char.ofNat (c.toNat + 32)).toNat = c.toNat + 32 :=
        char_toNat_ofNat_valid _ hlt
      have hne : (Char.ofNat (c.toNat + 32)) ≠ ' ' := by
        intro he
        rw [he] at htn
        have h32 : (' ' : Char).toNat = 32 := by decide
        omega
      simp only [normChar, hsp', Bool.false_eq_true, if_false, if_pos hup]
      rw [isTriggerChar_eq_false_iff]
      refine ⟨hne, fun hc => ?_⟩
      rw [htn] at hc
      omega
    · simp only [normChar, hsp', Bool.false_eq_true, if_false, if_neg hup]
      rw [isTriggerChar_eq_false_iff]
      exact ⟨hsp, hup⟩

theorem normChar_of_not_trigger (c : Char) (h : isTriggerChar c = false) :
    normChar c = c := by
  rw [isTriggerChar_eq_false_iff] at h
  obtain ⟨hsp, hup⟩ := h
  have hsp' : (c == ' ') = false := by simp [hsp]
  simp only [normChar, hsp', Bool.false_eq_true, if_false, if_neg hup]

theorem normalizeList_of_no_trigger (l : List Char)
    (h : ∀ c ∈ l, isTriggerChar c = false) : normalizeList l = l := by
  induction l with
  | nil => rfl
  | cons c cs ih =>
    have hc : isTriggerChar c = false := h c (List.mem_cons_self c cs)
    simp only [normalizeList, hc, Bool.false_eq_true, if_false]
    rw [ih (fun a ha => h a (List.mem_cons_of_mem c ha))]

theorem normalizeList_append_trigger (pre : List Char) (c : Char) (suf : List Char)
    (hpre : ∀ a ∈ pre, isTriggerChar a = false) (hc : isTriggerChar c = true) :
    normalizeList (pre ++ c :: suf) = pre ++ normChar c :: suf.map normChar := by
  induction pre with
  | nil => simp [normalizeList, hc]
  | cons p ps ih =>
    have hp : isTriggerChar p = false := hpre p (List.mem_cons_self p ps)
    simp only [List.cons_append, normalizeList, hp, Bool.false_eq_true, if_false,
      List.append_eq]
    rw [ih (fun a ha => hpre a (List.mem_cons_of_mem p ha))]

/-- C8 helper: the image of `normChar` contains no trigger characters, so a
second pass finds nothing to rewrite. -/
theorem normalizeList_idem (l : List Char) :
    normalizeList (normalizeList l) = normalizeList l := by
  induction l with
  | nil => rfl
  | cons c cs ih =>
    by_cases hc : isTriggerChar c = true
    · simp only [normalizeList, hc, if_true]
      have hnc : isTriggerChar (normChar c) = false := isTriggerChar_normChar c
      simp only [normalizeList, hnc, Bool.false_eq_true, if_false]
      rw [normalizeList_of_no_trigger]
      intro a ha
      obtain ⟨b, _, rfl⟩ := List.mem_map.mp ha
      exact isTriggerChar_normChar b
    · have hc' : isTriggerChar c = false := by
        cases h : isTriggerChar c
        · rfl
        · exact absurd h hc
      simp only [normalizeList, hc', Bool.false_eq_true, if_false]
      rw [ih]

/-! ## Python object model

The registry stores and hands around opaque runtime values (`PyObjectRef`).
We embed the value kinds the codecs module inspects: tuples (with an
allocation identifier standing for the `PyRc` pointer, so that clones of one
`PyTupleRef` are equal in the model exactly when they share the allocation),
strings, byte strings, integers, booleans, the singleton `None`, function
objects, and a catch-all for other heap objects. -/

inductive PyObj : Type where
  | none : PyObj
  | bool : Bool → PyObj
  | int : Int → PyObj
  | str : String → PyObj
  | bytes : List Nat → PyObj
  | tuple : Nat → List PyObj → PyObj
  | func : Nat → String → PyObj
  | obj : Nat → String → PyObj

/-- The class name of a value, as used in error messages (`obj.class().name`). -/
def PyObj.className : PyObj → String
  | .none => "NoneType"
  | .bool _ => "bool"
  | .int _ => "int"
  | .str _ => "str"
  | .bytes _ => "bytes"
  | .tuple _ _ => "tuple"
  | .func _ _ => "builtin_function_or_method"
  | .obj _ cls => cls

/-- The errors this module produces or passes along (`PyBaseExceptionRef`). -/
inductive PyErr : Type where
  | typeError : String → PyErr
  | lookupError : String → PyErr
  | overflowError : String → PyErr
  | propagatedExc : String → PyErr
deriving DecidableEq

/-- Outcome of running a piece of Rust code that may return, raise, or abort
the process: `panicked` stands for a Rust panic (integer-overflow check,
out-of-bounds slice index). -/
inductive RunRes (α : Type) : Type where
  | ok : α → RunRes α
  | err : PyErr → RunRes α
  | panicked : RunRes α

def RunRes.bind : RunRes α → (α → RunRes β) → RunRes β
  | .ok a, f => f a
  | .err e, _ => .err e
  | .panicked, _ => .panicked

instance : Monad RunRes where
  pure := RunRes.ok
  bind := RunRes.bind

/-- Lift a fallible (`PyResult`) computation into `RunRes` (the `?` operator). -/
def RunRes.ofExcept : Except PyErr α → RunRes α
  | .ok a => .ok a
  | .error e => .err e

/-- Rust `usize` subtraction `a - b`: overflow-checked, aborts on underflow. -/
def usizeSub (a b : Nat) : RunRes Nat :=
  if b ≤ a then .ok (a - b) else .panicked

/-! ## Association lists standing for `HashMap<String, _>` -/

def alistFind (m : List (String × α)) (k : String) : Option α :=
  match m with
  | [] => Option.none
  | (k0, v0) :: rest => if k0 = k then some v0 else alistFind rest k

/-- `HashMap::insert`: bind `k` to `v`, replacing any existing binding. -/
def alistInsert (m : List (String × α)) (k : String) (v : α) : List (String × α) :=
  match m with
  | [] => [(k, v)]
  | (k0, v0) :: rest => if k0 = k then (k, v) :: rest else (k0, v0) :: alistInsert rest k v

/-- `HashMap::remove` (the removed value is read separately via `alistFind`). -/
def alistRemove (m : List (String × α)) (k : String) : List (String × α) :=
  match m with
  | [] => []
  | (k0, v0) :: rest => if k0 = k then rest else (k0, v0) :: alistRemove rest k

/-- `map.entry(k).or_insert(v)` followed by a clone of the stored value:
returns the map afterwards and whichever value ends up stored. -/
def alistOrInsert (m : List (String × α)) (k : String) (v : α) : List (String × α) × α :=
  match alistFind m k with
  | some v0 => (m, v0)
  | Option.none => (alistInsert m k v, v)

/-! ## Codec handles (`PyCodec`) -/

/-- A codec handle: a validated 4-tuple.  `tupleId` is the identity of the
underlying tuple allocation; `PyCodec::clone` clones the `PyTupleRef`, so two
handle values are reference-identical exactly when they are equal here. -/
structure PyCodec : Type where
  tupleId : Nat
  elems : List PyObj

/-- The tuple object a handle wraps (`self.0`). -/
def PyCodec.toObj (c : PyCodec) : PyObj := PyObj.tuple c.tupleId c.elems

/-- `PyCodec::from_tuple`: accept exactly 4 elements. -/
def PyCodec.from_tuple (id : Nat) (elems : List PyObj) : Except PyObj PyCodec :=
  if elems.length = 4 then .ok ⟨id, elems⟩ else .error (PyObj.tuple id elems)

/-- `self.0.as_slice()[0]` (handles are always 4-tuples, so index 0 exists). -/
def PyCodec.get_encode_func (c : PyCodec) : PyObj := c.elems.getD 0 PyObj.none

/-- `self.0.as_slice()[1]`. -/
def PyCodec.get_decode_func (c : PyCodec) : PyObj := c.elems.getD 1 PyObj.none

/-- `<Option<PyCodec>>::try_from_object`: `None` means "no match"; anything
else must downcast to a 4-element tuple, otherwise a fatal type error. -/
def tryFromObjectOptCodec : PyObj → Except PyErr (Option PyCodec)
  | PyObj.none => .ok Option.none
  | PyObj.tuple id elems =>
      if elems.length = 4 then .ok (some ⟨id, elems⟩)
      else .error (PyErr.typeError "codec search functions must return 4-tuples")
  | _ => .error (PyErr.typeError "codec search functions must return 4-tuples")

/-- The callable-invocation oracle of the runtime (`vm.invoke`): outside this
core, supplied per theorem. -/
def Invoke : Type := PyObj → List PyObj → Except PyErr PyObj

/-- The optional-attribute-read oracle of the runtime (`vm.get_attribute_opt`). -/
def GetAttrOpt : Type := PyObj → String → Except PyErr (Option PyObj)

/-- The truthiness oracle of the runtime (`pybool::boolval`). -/
def Boolval : Type := PyObj → Except PyErr Bool

/-- Argument list for an encode/decode capability call. -/
def capabilityArgs (obj : PyObj) (errors : Option PyObj) : List PyObj :=
  match errors with
  | some e => [obj, e]
  | Option.none => [obj]

/-- `PyCodec::encode`: invoke slot 0, require a 2-tuple result, return its
first element (the consumed-length slot is discarded). -/
def PyCodec.encode (invoke : Invoke) (self : PyCodec) (obj : PyObj)
    (errors : Option PyObj) : Except PyErr PyObj := do
  let res ← invoke self.get_encode_func (capabilityArgs obj errors)
  match res with
  | PyObj.tuple _ elems =>
      if elems.length = 2 then .ok (elems.getD 0 PyObj.none)
      else .error (PyErr.typeError "encoder must return a tuple (object, integer)")
  | _ => .error (PyErr.typeError "encoder must return a tuple (object, integer)")

/-- `PyCodec::decode`: invoke slot 1, require a 2-tuple result, return its
first element. -/
def PyCodec.decode (invoke : Invoke) (self : PyCodec) (obj : PyObj)
    (errors : Option PyObj) : Except PyErr PyObj := do
  let res ← invoke self.get_decode_func (capabilityArgs obj errors)
  match res with
  | PyObj.tuple _ elems =>
      if elems.length = 2 then .ok (elems.getD 0 PyObj.none)
      else .error (PyErr.typeError "decoder must return a tuple (object,integer)")
  | _ => .error (PyErr.typeError "decoder must return a tuple (object,integer)")

/-- `PyCodec::is_text_codec`: probe the optional `_is_text_encoding` marker
attribute on the tuple; absence defaults to `true`, presence is passed to
`boolval`. -/
def PyCodec.is_text_codec (getAttrOpt : GetAttrOpt) (boolval : Boolval)
    (self : PyCodec) : Except PyErr Bool := do
  let is_text ← getAttrOpt self.toObj "_is_text_encoding"
  match is_text with
  | Option.none => .ok true
  | some v => boolval v

/-! ## The registry (`CodecsRegistry` / `RegistryInner`)

One value holds the three fields guarded by the single `PyRwLock`.  Lookup is
embedded with two extra parameters: an `interfere` function standing for
whatever mutations other threads perform during the window in which no lock
is held (applied at the point the write lock is re-acquired; `id` recovers
the single-threaded run), and the resulting trace of lock and provider-call
events, against which the locking discipline is stated. -/

structure RegistryInner : Type where
  search_path : List PyObj
  search_cache : List (String × PyCodec)
  errors : List (String × PyObj)

/-- One observable step of `CodecsRegistry::lookup`: lock acquisitions and
releases on `self.inner`, and invocations of provider callbacks. -/
inductive RegEvent : Type where
  | readLock : RegEvent
  | readUnlock : RegEvent
  | writeLock : RegEvent
  | writeUnlock : RegEvent
  | invokeProvider : PyObj → RegEvent

namespace CodecsRegistry

/-- The provider-walking loop of `lookup`: invoke each search function of the
snapshot in order with the normalized-name string object; a malformed return
is a fatal error, `None` moves on to the next provider, and the first handle
produced is returned.  Also records the invocation events. -/
def runSearchPath (invoke : Invoke) (ename : PyObj) :
    List PyObj → Except PyErr (Option PyCodec) × List RegEvent
  | [] => (.ok Option.none, [])
  | f :: rest =>
    match invoke f [ename] with
    | .error e => (.error e, [RegEvent.invokeProvider f])
    | .ok res =>
      match tryFromObjectOptCodec res with
      | .error e => (.error e, [RegEvent.invokeProvider f])
      | .ok (some codec) => (.ok (some codec), [RegEvent.invokeProvider f])
      | .ok Option.none =>
        let next := runSearchPath invoke ename rest
        (next.1, RegEvent.invokeProvider f :: next.2)

/-- The full output of one `lookup` call: its result, the registry state
afterwards, and the event trace. -/
structure LookupOut : Type where
  result : Except PyErr PyCodec
  state : RegistryInner
  events : List RegEvent

/-- `CodecsRegistry::lookup`: normalize, check the cache under the read lock,
otherwise snapshot `search_path`, drop the lock, walk the providers, and
insert the produced handle under the write lock with `entry(..).or_insert`
("someone might have raced us to this, so use theirs"). -/
def lookup (invoke : Invoke) (interfere : RegistryInner → RegistryInner)
    (self : RegistryInner) (encoding : String) : LookupOut :=
  let encoding := normalizeName encoding
  match alistFind self.search_cache encoding with
  | some codec => ⟨.ok codec, self, [RegEvent.readLock, RegEvent.readUnlock]⟩
  | Option.none =>
    let search_path := self.search_path
    -- the read guard is dropped here; other threads may mutate the registry
    -- while the providers run, which `interfere` accounts for
    match runSearchPath invoke (PyObj.str encoding) search_path with
    | (.error e, evs) =>
        ⟨.error e, interfere self, [RegEvent.readLock, RegEvent.readUnlock] ++ evs⟩
    | (.ok (some codec), evs) =>
        let inner := interfere self
        let inserted := alistOrInsert inner.search_cache encoding codec
        ⟨.ok inserted.2, { inner with search_cache := inserted.1 },
          [RegEvent.readLock, RegEvent.readUnlock] ++ evs ++
            [RegEvent.writeLock, RegEvent.writeUnlock]⟩
    | (.ok Option.none, evs) =>
        ⟨.error (PyErr.lookupError ("unknown encoding: " ++ encoding)),
          interfere self, [RegEvent.readLock, RegEvent.readUnlock] ++ evs⟩

/-- The model of `vm.is_callable`: function objects are the invocable values. -/
def isCallable : PyObj → Bool
  | PyObj.func _ _ => true
  | _ => false

/-- `CodecsRegistry::register`: reject non-callables, else append the
provider to the end of `search_path`. -/
def register (self : RegistryInner) (search_function : PyObj) :
    Except PyErr Unit × RegistryInner :=
  if isCallable search_function then
    (.ok (), { self with search_path := self.search_path ++ [search_function] })
  else
    (.error (PyErr.typeError "argument must be callable"), self)

/-- `CodecsRegistry::forget`: drop the cache entry for the normalized name,
returning the removed handle if there was one. -/
def forget (self : RegistryInner) (encoding : String) :
    Option PyCodec × RegistryInner :=
  let encoding := normalizeName encoding
  (alistFind self.search_cache encoding,
    { self with search_cache := alistRemove self.search_cache encoding })

/-- `CodecsRegistry::register_error`: unconditional overwrite, returning the
previously bound handler if any. -/
def register_error (self : RegistryInner) (name : String) (handler : PyObj) :
    Option PyObj × RegistryInner :=
  (alistFind self.errors name,
    { self with errors := alistInsert self.errors name handler })

/-- `CodecsRegistry::lookup_error_opt`. -/
def lookup_error_opt (self : RegistryInner) (name : String) : Option PyObj :=
  alistFind self.errors name

/-- `CodecsRegistry::lookup_error`. -/
def lookup_error (self : RegistryInner) (name : String) : Except PyErr PyObj :=
  match lookup_error_opt self name with
  | some h => .ok h
  | Option.none =>
      .error (PyErr.lookupError ("unknown error handler name \x27" ++ name ++ "\x27"))

/-- `CodecsRegistry::_lookup_text_encoding`: resolve, then require the
is-text-codec predicate, else a lookup error pointing at `generic_func`. -/
def _lookup_text_encoding (invoke : Invoke) (getAttrOpt : GetAttrOpt)
    (boolval : Boolval) (interfere : RegistryInner → RegistryInner)
    (self : RegistryInner) (encoding generic_func : String) :
    Except PyErr PyCodec × RegistryInner :=
  let out := lookup invoke interfere self encoding
  match out.result with
  | .error e => (.error e, out.state)
  | .ok codec =>
    match PyCodec.is_text_codec getAttrOpt boolval codec with
    | .error e => (.error e, out.state)
    | .ok true => (.ok codec, out.state)
    | .ok false =>
        (.error (PyErr.lookupError ("\x27" ++ encoding ++
          "\x27 is not a text encoding; use " ++ generic_func ++
          " to handle arbitrary codecs")), out.state)

/-- `CodecsRegistry::encode_text`: text-strict resolution, then the encode
capability, then require a `bytes` result. -/
def encode_text (invoke : Invoke) (getAttrOpt : GetAttrOpt) (boolval : Boolval)
    (interfere : RegistryInner → RegistryInner) (self : RegistryInner)
    (obj : String) (encoding : String) (errors : Option PyObj) :
    Except PyErr (List Nat) × RegistryInner :=
  match _lookup_text_encoding invoke getAttrOpt boolval interfere self encoding
      "codecs.encode()" with
  | (.error e, st) => (.error e, st)
  | (.ok codec, st) =>
    match PyCodec.encode invoke codec (PyObj.str obj) errors with
    | .error e => (.error e, st)
    | .ok (PyObj.bytes b) => (.ok b, st)
    | .ok res =>
        (.error (PyErr.typeError ("\x27" ++ encoding ++ "\x27 encoder returned \x27" ++
          res.className ++
          "\x27 instead of \x27bytes\x27; use codecs.encode() to encode arbitrary types")),
          st)

/-- `CodecsRegistry::decode_text`: text-strict resolution, then the decode
capability, then require a `str` result. -/
def decode_text (invoke : Invoke) (getAttrOpt : GetAttrOpt) (boolval : Boolval)
    (interfere : RegistryInner → RegistryInner) (self : RegistryInner)
    (obj : PyObj) (encoding : String) (errors : Option PyObj) :
    Except PyErr String × RegistryInner :=
  match _lookup_text_encoding invoke getAttrOpt boolval interfere self encoding
      "codecs.decode()" with
  | (.error e, st) => (.error e, st)
  | (.ok codec, st) =>
    match PyCodec.decode invoke codec obj errors with
    | .error e => (.error e, st)
    | .ok (PyObj.str s) => (.ok s, st)
    | .ok res =>
        (.error (PyErr.typeError ("\x27" ++ encoding ++ "\x27 decoder returned \x27" ++
          res.className ++
          "\x27 instead of \x27str\x27; use codecs.decode() to encode arbitrary types")),
          st)

end CodecsRegistry

/-! ## Error descriptions and the built-in error handlers

A handler receives an exception object and inspects it through `isinstance`
checks against the three Unicode error classes and through the attributes
`start`, `end` and `object`.  The description below records exactly those
observations: the three `isinstance` answers (independent booleans, since a
crafted class may inherit from several), the class name used in the
`bad_err_type` message, and the three attribute values (arbitrary objects —
the integer conversion is performed by the handler, not here). -/

structure ExcDesc : Type where
  cls : String
  isUnicodeEncodeError : Bool
  isUnicodeDecodeError : Bool
  isUnicodeTranslateError : Bool
  startAttr : PyObj
  endAttr : PyObj
  objectAttr : PyObj

/-- `is_decode_err`. -/
def is_decode_err (err : ExcDesc) : Bool := err.isUnicodeDecodeError

/-- `is_encode_ish_err`: encode-error or translate-error. -/
def is_encode_ish_err (err : ExcDesc) : Bool :=
  err.isUnicodeEncodeError || err.isUnicodeTranslateError

/-- `bad_err_type`. -/
def bad_err_type (err : ExcDesc) : PyErr :=
  PyErr.typeError ("don\x27t know how to handle " ++ err.cls ++ " in error callback")

/-- `usize::try_from_object` for the value kinds of the model: integers
convert when non-negative, a negative integer overflows, anything else is a
type error.  Which failure is produced is what the callers propagate. -/
def usizeTryFromObject : PyObj → Except PyErr Nat
  | PyObj.int n =>
      if 0 ≤ n then .ok n.toNat
      else .error (PyErr.overflowError "can\x27t convert negative int to unsigned")
  | v => .error (PyErr.typeError ("\x27" ++ v.className ++
      "\x27 object cannot be interpreted as an integer"))

/-- `extract_unicode_error_range`: read `start` and `end` as machine-size
integers; any conversion failure propagates. -/
def extract_unicode_error_range (err : ExcDesc) : Except PyErr (Nat × Nat) := do
  let start ← usizeTryFromObject err.startAttr
  let stop ← usizeTryFromObject err.endAttr
  .ok (start, stop)

/-- `PyStrRef::try_from_object` (the downcast used for the `object`
attribute of encode/translate errors). -/
def strTryFromObject : PyObj → Except PyErr String
  | PyObj.str s => .ok s
  | v => .error (PyErr.typeError ("Expected type \x27str\x27, not \x27" ++
      v.className ++ "\x27"))

/-- `PyBytesRef::try_from_object` (the downcast used for the `object`
attribute of decode errors). -/
def bytesTryFromObject : PyObj → Except PyErr (List Nat)
  | PyObj.bytes b => .ok b
  | v => .error (PyErr.typeError ("Expected type \x27bytes\x27, not \x27" ++
      v.className ++ "\x27"))

/-- Modelled from the spec: the helper `common::str::try_get_chars(s, start..)`
(its source is not under `src/`) yields the characters of `s` from character
position `start` on, and no value when `start` lies past the end; the callers
immediately apply `unwrap_or("")`. -/
def tryGetCharsFrom (s : List Char) (start : Nat) : Option (List Char) :=
  if start ≤ s.length then some (s.drop start) else Option.none

/-- `str::repeat`. -/
def strRepeat (s : String) : Nat → String
  | 0 => ""
  | n + 1 => s ++ strRepeat s n

/-- Lowercase hexadecimal digit. -/
def hexDigitChar (n : Nat) : Char :=
  if n < 10 then Char.ofNat (48 + n) else Char.ofNat (87 + n)

/-- The digits of `n` in lowercase hexadecimal, most significant first
(`fuel` bounds the recursion; dividing by 16 shrinks faster than the fuel). -/
def natToHexAux : Nat → Nat → List Char
  | 0, _ => []
  | fuel + 1, n =>
    if n < 16 then [hexDigitChar n]
    else natToHexAux fuel (n / 16) ++ [hexDigitChar (n % 16)]

/-- The digits of `n` in lowercase hexadecimal, most significant first. -/
def natToHexDigits (n : Nat) : List Char := natToHexAux (n + 1) n

/-- Rust `format!` with `{:0Wx}`: lowercase hex, zero-padded to a minimum
width (never truncated). -/
def natToHexPad (n : Nat) (width : Nat) : String :=
  let ds := natToHexDigits n
  ⟨List.replicate (width - ds.length) '0' ++ ds⟩

/-- Rust slice indexing `&b[start..stop]`: aborts (panics) when the range is
inverted or reaches past the end. -/
def sliceIndexRange (b : List Nat) (start stop : Nat) : RunRes (List Nat) :=
  if start ≤ stop ∧ stop ≤ b.length then .ok ((b.take stop).drop start)
  else .panicked

/-- `strict_errors`: re-raise the supplied exception unchanged. -/
def strict_errors (err : ExcDesc) : RunRes (String × Nat) :=
  .err (PyErr.propagatedExc err.cls)

/-- `ignore_errors`: empty replacement, resume at `end`. -/
def ignore_errors (err : ExcDesc) : RunRes (String × Nat) := do
  if is_encode_ish_err err || is_decode_err err then
    let range ← RunRes.ofExcept (extract_unicode_error_range err)
    .ok ("", range.2)
  else
    .err (bad_err_type err)

/-- `replace_errors`.  The Rust function picks the replacement string in an
`isinstance` chain (encode first, decode returns early, then translate) and
then repeats it `end - start` times; the shared tail is inlined per branch
here.  The `usize` subtraction underflows — aborts — when `end < start`. -/
def replace_errors (err : ExcDesc) : RunRes (String × Nat) := do
  if err.isUnicodeEncodeError then
    let range ← RunRes.ofExcept (extract_unicode_error_range err)
    let n ← usizeSub range.2 range.1
    .ok (strRepeat "?" n, range.2)
  else if err.isUnicodeDecodeError then
    let range ← RunRes.ofExcept (extract_unicode_error_range err)
    .ok ("�", range.2)
  else if err.isUnicodeTranslateError then
    let range ← RunRes.ofExcept (extract_unicode_error_range err)
    let n ← usizeSub range.2 range.1
    .ok (strRepeat "�" n, range.2)
  else
    .err (bad_err_type err)

/-- `xmlcharrefreplace_errors`: decimal character references for the
characters of the span; `range.len()` is `end - start` clamped at zero, and
characters past the end of the text are simply not there to take. -/
def xmlcharrefreplace_errors (err : ExcDesc) : RunRes (String × Nat) := do
  if !(is_encode_ish_err err) then
    .err (bad_err_type err)
  else
    let range ← RunRes.ofExcept (extract_unicode_error_range err)
    let s ← RunRes.ofExcept (strTryFromObject err.objectAttr)
    let s_after_start := (tryGetCharsFrom s.data range.1).getD []
    let num_chars := range.2 - range.1
    let out := String.join ((s_after_start.take num_chars).map
      (fun c => "&#" ++ toString c.toNat ++ ";"))
    .ok (out, range.2)

/-- The per-character escape of `backslashreplace_errors` for text spans. -/
def backslashEscapeChar (c : Char) : String :=
  let n := c.toNat
  if n ≥ 0x10000 then "\\U" ++ natToHexPad n 8
  else if n ≥ 0x100 then "\\u" ++ natToHexPad n 4
  else "\\x" ++ natToHexPad n 2

/-- `backslashreplace_errors`: on decode errors, hex-escape the bytes of the
span, indexing the bytes with `&b[range]` (which aborts if the range is out
of bounds); on encode/translate errors, escape the characters of the span. -/
def backslashreplace_errors (err : ExcDesc) : RunRes (String × Nat) := do
  if is_decode_err err then
    let range ← RunRes.ofExcept (extract_unicode_error_range err)
    let b ← RunRes.ofExcept (bytesTryFromObject err.objectAttr)
    let bs ← sliceIndexRange b range.1 range.2
    let replace := String.join (bs.map (fun c => "\\x" ++ natToHexPad c 2))
    .ok (replace, range.2)
  else if !(is_encode_ish_err err) then
    .err (bad_err_type err)
  else
    let range ← RunRes.ofExcept (extract_unicode_error_range err)
    let s ← RunRes.ofExcept (strTryFromObject err.objectAttr)
    let s_after_start := (tryGetCharsFrom s.data range.1).getD []
    let num_chars := range.2 - range.1
    let out := String.join ((s_after_start.take num_chars).map backslashEscapeChar)
    .ok (out, range.2)

/-! ## Registry construction and the operation alphabet -/

/-- The five built-in handler names, in construction order. -/
def builtinErrorNames : List String :=
  ["strict", "ignore", "replace", "xmlcharrefreplace", "backslashreplace"]

/-- `CodecsRegistry::new`: empty provider list, empty cache, and the five
built-in error handlers (each a fresh `ctx.new_function` object). -/
def newRegistry : RegistryInner :=
  { search_path := []
  , search_cache := []
  , errors :=
      [ ("strict", PyObj.func 0 "strict_errors")
      , ("ignore", PyObj.func 1 "ignore_errors")
      , ("replace", PyObj.func 2 "replace_errors")
      , ("xmlcharrefreplace", PyObj.func 3 "xmlcharrefreplace_errors")
      , ("backslashreplace", PyObj.func 4 "backslashreplace_errors") ] }

/-- One public registry operation, as fired by an arbitrary caller.  A
`lookupOp` carries the invocation oracle its providers run under. -/
inductive RegOp : Type where
  | registerOp : PyObj → RegOp
  | lookupOp : Invoke → String → RegOp
  | forgetOp : String → RegOp
  | registerErrorOp : String → PyObj → RegOp
  | lookupErrorOp : String → RegOp

/-- The state effect of one operation (single-threaded, so lookup runs with
no interference). -/
def applyOp (st : RegistryInner) : RegOp → RegistryInner
  | .registerOp f => (CodecsRegistry.register st f).2
  | .lookupOp invoke name => (CodecsRegistry.lookup invoke id st name).state
  | .forgetOp name => (CodecsRegistry.forget st name).2
  | .registerErrorOp name h => (CodecsRegistry.register_error st name h).2
  | .lookupErrorOp _ => st

/-- A whole sequence of operations, applied left to right. -/
def applyOps (st : RegistryInner) (ops : List RegOp) : RegistryInner :=
  ops.foldl applyOp st

/-! ## Statement-side predicates -/

/-- A provider return value that `lookup` accepts: absent, or a 4-tuple. -/
def isNoneOr4Tuple : PyObj → Bool
  | PyObj.none => true
  | PyObj.tuple _ elems => elems.length == 4
  | _ => false

/-- A capability return value that `encode`/`decode` accept. -/
def is2Tuple : PyObj → Bool
  | PyObj.tuple _ elems => elems.length == 2
  | _ => false

def isBytesObj : PyObj → Bool
  | PyObj.bytes _ => true
  | _ => false

def isStrObj : PyObj → Bool
  | PyObj.str _ => true
  | _ => false

/-- The lowercase hexadecimal digit alphabet. -/
def hexAlphabet : List Char := "0123456789abcdef".data

/-! ## Generic lemmas about the association-list maps -/

theorem alistFind_insert_self (m : List (String × α)) (k : String) (v : α) :
    alistFind (alistInsert m k v) k = some v := by
  induction m with
  | nil => simp [alistInsert, alistFind]
  | cons kv rest ih =>
    obtain ⟨k0, v0⟩ := kv
    by_cases h : k0 = k
    · subst h; simp [alistInsert, alistFind]
    · simp [alistInsert, alistFind, h, ih]

theorem alistFind_insert_isSome (m : List (String × α)) (k k' : String) (v : α)
    (h : (alistFind m k').isSome = true) :
    (alistFind (alistInsert m k v) k').isSome = true := by
  induction m with
  | nil => simp [alistFind] at h
  | cons kv rest ih =>
    obtain ⟨k0, v0⟩ := kv
    by_cases hk : k0 = k
    · subst hk
      by_cases hk' : k0 = k'
      · subst hk'; simp [alistInsert, alistFind]
      · simp only [alistFind, if_neg hk'] at h
        simp [alistInsert, alistFind, hk', h]
    · by_cases hk' : k0 = k'
      · subst hk'; simp [alistInsert, alistFind, hk]
      · simp only [alistFind, if_neg hk'] at h
        simp [alistInsert, alistFind, hk, hk', ih h]

/-! ## Claim C2 — the contract of the normalizer -/

/-- C2: `normalize_encoding_name` returns the input unchanged when it
contains no space and no ASCII uppercase letter; otherwise it leaves every
character before the first trigger untouched and from that offset on replaces
each space with a hyphen and lowercases exactly the ASCII uppercase letters,
passing every other character through; and `"UTF8" -> "utf8"`,
`"Latin 1" -> "latin-1"`, `"utf-8" -> "utf-8"`. -/
theorem C2_normalize_contract :
    (∀ l : List Char, (∀ c ∈ l, isTriggerChar c = false) → normalizeList l = l) ∧
    (∀ (pre : List Char) (c : Char) (suf : List Char),
       (∀ a ∈ pre, isTriggerChar a = false) → isTriggerChar c = true →
       normalizeList (pre ++ c :: suf) = pre ++ (c :: suf).map normChar) ∧
    (∀ a : Char,
       (a = ' ' → normChar a = '-') ∧
       (65 ≤ a.toNat → a.toNat ≤ 90 →
          (normChar a).toNat = a.toNat + 32 ∧ 97 ≤ (normChar a).toNat ∧
          (normChar a).toNat ≤ 122) ∧
       (a ≠ ' ' → ¬(65 ≤ a.toNat ∧ a.toNat ≤ 90) → normChar a = a)) ∧
    normalizeName "UTF8" = "utf8" ∧ normalizeName "Latin 1" = "latin-1" ∧
    normalizeName "utf-8" = "utf-8" := by
  refine ⟨normalizeList_of_no_trigger, ?_, ?_, by decide, by decide, by decide⟩
  · intro pre c suf hpre hc
    rw [normalizeList_append_trigger pre c suf hpre hc, List.map_cons]
  · intro a
    refine ⟨?_, ?_, ?_⟩
    · intro h; subst h; decide
    · intro h65 h90
      have hne : ¬ a = ' ' := by
        intro h; subst h
        have : (' ' : Char).toNat = 32 := by decide
        omega
      have hsp' : (a == ' ') = false := by simp [hne]
      have hv : (Char.ofNat (a.toNat + 32)).toNat = a.toNat + 32 :=
        char_toNat_ofNat_valid _ (by omega)
      have hcond : 65 ≤ a.toNat ∧ a.toNat ≤ 90 := ⟨h65, h90⟩
      simp only [normChar, hsp', Bool.false_eq_true, if_false, if_pos hcond]
      refine ⟨hv, ?_, ?_⟩ <;> omega
    · intro hne hrange
      have hsp' : (a == ' ') = false := by simp [hne]
      simp only [normChar, hsp', Bool.false_eq_true, if_false, if_neg hrange]

/-- Closed instance of C2: a trigger-free name passes through unchanged, and
a name with a space is rewritten from the space onward. -/
theorem C2_normalize_contract_witness :
    normalizeList ['u', 't', 'f'] = ['u', 't', 'f'] ∧
    normalizeList (['l', 'a'] ++ ' ' :: ['B', '1']) =
      ['l', 'a'] ++ (' ' :: ['B', '1']).map normChar ∧
    normChar 'Q' = 'q' := by
  exact ⟨C2_normalize_contract.1 ['u', 't', 'f'] (by decide),
    C2_normalize_contract.2.1 ['l', 'a'] ' ' ['B', '1'] (by decide) (by decide),
    by decide⟩

/-! ## Case lemmas for `lookup` -/

theorem lookup_fast_path (invoke : Invoke) (interfere : RegistryInner → RegistryInner)
    (st : RegistryInner) (name : String) (c : PyCodec)
    (h : alistFind st.search_cache (normalizeName name) = some c) :
    CodecsRegistry.lookup invoke interfere st name =
      ⟨.ok c, st, [RegEvent.readLock, RegEvent.readUnlock]⟩ := by
  simp only [CodecsRegistry.lookup, h]

theorem lookup_miss_error (invoke : Invoke) (interfere : RegistryInner → RegistryInner)
    (st : RegistryInner) (name : String) (e : PyErr) (evs : List RegEvent)
    (hmiss : alistFind st.search_cache (normalizeName name) = Option.none)
    (hrun : CodecsRegistry.runSearchPath invoke (PyObj.str (normalizeName name))
      st.search_path = (.error e, evs)) :
    CodecsRegistry.lookup invoke interfere st name =
      ⟨.error e, interfere st, [RegEvent.readLock, RegEvent.readUnlock] ++ evs⟩ := by
  simp only [CodecsRegistry.lookup, hmiss, hrun]

theorem lookup_miss_nomatch (invoke : Invoke) (interfere : RegistryInner → RegistryInner)
    (st : RegistryInner) (name : String) (evs : List RegEvent)
    (hmiss : alistFind st.search_cache (normalizeName name) = Option.none)
    (hrun : CodecsRegistry.runSearchPath invoke (PyObj.str (normalizeName name))
      st.search_path = (.ok Option.none, evs)) :
    CodecsRegistry.lookup invoke interfere st name =
      ⟨.error (PyErr.lookupError ("unknown encoding: " ++ normalizeName name)),
        interfere st, [RegEvent.readLock, RegEvent.readUnlock] ++ evs⟩ := by
  simp only [CodecsRegistry.lookup, hmiss, hrun]

theorem lookup_miss_found (invoke : Invoke) (interfere : RegistryInner → RegistryInner)
    (st : RegistryInner) (name : String) (c : PyCodec) (evs : List RegEvent)
    (hmiss : alistFind st.search_cache (normalizeName name) = Option.none)
    (hrun : CodecsRegistry.runSearchPath invoke (PyObj.str (normalizeName name))
      st.search_path = (.ok (some c), evs)) :
    CodecsRegistry.lookup invoke interfere st name =
      ⟨.ok (alistOrInsert (interfere st).search_cache (normalizeName name) c).2,
        { interfere st with
            search_cache :=
              (alistOrInsert (interfere st).search_cache (normalizeName name) c).1 },
        [RegEvent.readLock, RegEvent.readUnlock] ++ evs ++
          [RegEvent.writeLock, RegEvent.writeUnlock]⟩ := by
  simp only [CodecsRegistry.lookup, hmiss, hrun]

/-! ## Claim C1 — cache hit, cache fill, and race-tolerant insert -/

/-- C1: after a first `lookup(name)` succeeds, the resolved handle is stored
in `search_cache` under the normalized name, and a second `lookup(name)`
returns that stored handle — the very value in the cache, which in the model
carries the tuple allocation identity, so reference-identical — with a trace
that invokes no provider; and on a cache miss where a provider produces a
handle but an entry for the normalized name already exists at write-lock
time, the existing entry is kept and returned (insert-if-absent, first
writer wins). -/
theorem C1_lookup_cache_and_race_insert (invoke : Invoke) (st : RegistryInner)
    (name : String) :
    (∀ (c : PyCodec) (st' : RegistryInner) (evs : List RegEvent),
       CodecsRegistry.lookup invoke id st name = ⟨.ok c, st', evs⟩ →
       alistFind st'.search_cache (normalizeName name) = some c ∧
       CodecsRegistry.lookup invoke id st' name =
         ⟨.ok c, st', [RegEvent.readLock, RegEvent.readUnlock]⟩) ∧
    (∀ (interfere : RegistryInner → RegistryInner) (c0 c : PyCodec)
       (evs : List RegEvent),
       alistFind st.search_cache (normalizeName name) = Option.none →
       CodecsRegistry.runSearchPath invoke (PyObj.str (normalizeName name))
         st.search_path = (.ok (some c), evs) →
       alistFind (interfere st).search_cache (normalizeName name) = some c0 →
       CodecsRegistry.lookup invoke interfere st name =
         ⟨.ok c0, interfere st,
           [RegEvent.readLock, RegEvent.readUnlock] ++ evs ++
             [RegEvent.writeLock, RegEvent.writeUnlock]⟩) := by
  constructor
  · intro c st' evs h
    cases hfind : alistFind st.search_cache (normalizeName name) with
    | some c0 =>
      rw [lookup_fast_path invoke id st name c0 hfind] at h
      simp only [CodecsRegistry.LookupOut.mk.injEq, Except.ok.injEq] at h
      obtain ⟨h1, h2, h3⟩ := h
      subst h1; subst h2
      exact ⟨hfind, lookup_fast_path invoke id st name c0 hfind⟩
    | none =>
      cases hrun : CodecsRegistry.runSearchPath invoke
          (PyObj.str (normalizeName name)) st.search_path with
      | mk r evs2 =>
        cases r with
        | error e =>
          rw [lookup_miss_error invoke id st name e evs2 hfind hrun] at h
          simp at h
        | ok o =>
          cases o with
          | none =>
            rw [lookup_miss_nomatch invoke id st name evs2 hfind hrun] at h
            simp at h
          | some cp =>
            rw [lookup_miss_found invoke id st name cp evs2 hfind hrun] at h
            simp only [id_eq, alistOrInsert, hfind, CodecsRegistry.LookupOut.mk.injEq,
              Except.ok.injEq] at h
            obtain ⟨h1, h2, h3⟩ := h
            subst h1
            subst h2
            refine ⟨alistFind_insert_self st.search_cache (normalizeName name) cp, ?_⟩
            exact lookup_fast_path invoke id _ name cp
              (alistFind_insert_self st.search_cache (normalizeName name) cp)
  · intro interfere c0 c evs hmiss hrun hexists
    rw [lookup_miss_found invoke interfere st name c evs hmiss hrun]
    simp only [alistOrInsert, hexists]

/-- Closed instance of C1: a registry with one provider that recognizes the
name `"x"`.  The first lookup resolves and caches the handle; the witness
states the cached binding and the fast-path second lookup. -/
def wCodecTuple : List PyObj :=
  [PyObj.func 11 "enc", PyObj.func 12 "dec", PyObj.none, PyObj.none]

def wCodec : PyCodec := ⟨42, wCodecTuple⟩

def wProvider : PyObj := PyObj.func 10 "search0"

def wInvoke : Invoke := fun _ _ => .ok (PyObj.tuple 42 wCodecTuple)

def wSt : RegistryInner :=
  { search_path := [wProvider], search_cache := [], errors := [] }

def wSt1 : RegistryInner :=
  { search_path := [wProvider], search_cache := [("x", wCodec)], errors := [] }

theorem C1_lookup_cache_and_race_insert_witness :
    alistFind wSt1.search_cache (normalizeName "x") = some wCodec ∧
    CodecsRegistry.lookup wInvoke id wSt1 "x" =
      ⟨.ok wCodec, wSt1, [RegEvent.readLock, RegEvent.readUnlock]⟩ :=
  (C1_lookup_cache_and_race_insert wInvoke wSt "x").1 wCodec wSt1
    [RegEvent.readLock, RegEvent.readUnlock, RegEvent.invokeProvider wProvider,
      RegEvent.writeLock, RegEvent.writeUnlock] (by rfl)

/-! ## Claim C10 — no lock held across provider calls; racing lookups
converge -/

/-- Check of a trace: every provider invocation happens while the number of
locks currently held is zero. -/
def providerCallsUnlocked : List RegEvent → Nat → Bool
  | [], _ => true
  | RegEvent.readLock :: rest, d => providerCallsUnlocked rest (d + 1)
  | RegEvent.readUnlock :: rest, d => providerCallsUnlocked rest (d - 1)
  | RegEvent.writeLock :: rest, d => providerCallsUnlocked rest (d + 1)
  | RegEvent.writeUnlock :: rest, d => providerCallsUnlocked rest (d - 1)
  | RegEvent.invokeProvider _ :: rest, d => (d == 0) && providerCallsUnlocked rest d

theorem runSearchPath_events_all_invoke (invoke : Invoke) (ename : PyObj)
    (l : List PyObj) :
    ∀ ev ∈ (CodecsRegistry.runSearchPath invoke ename l).2,
      ∃ f, ev = RegEvent.invokeProvider f := by
  induction l with
  | nil =>
    intro ev h
    simp [CodecsRegistry.runSearchPath] at h
  | cons f rest ih =>
    intro ev hev
    simp only [CodecsRegistry.runSearchPath] at hev
    cases hi : invoke f [ename] with
    | error e =>
      rw [hi] at hev
      simp at hev
      exact ⟨f, hev⟩
    | ok res =>
      simp only [hi] at hev
      cases ht : tryFromObjectOptCodec res with
      | error e =>
        simp only [ht] at hev
        simp at hev
        exact ⟨f, hev⟩
      | ok o =>
        simp only [ht] at hev
        cases o with
        | none =>
          simp only [List.mem_cons] at hev
          rcases hev with hev | hev
          · exact ⟨f, hev⟩
          · exact ih ev hev
        | some cp =>
          simp at hev
          exact ⟨f, hev⟩

theorem providerCallsUnlocked_invoke_block (evs : List RegEvent) :
    ∀ rest : List RegEvent, (∀ ev ∈ evs, ∃ f, ev = RegEvent.invokeProvider f) →
      providerCallsUnlocked (evs ++ rest) 0 = providerCallsUnlocked rest 0 := by
  induction evs with
  | nil => intro rest _; rfl
  | cons ev tail ih =>
    intro rest hall
    obtain ⟨f, rfl⟩ := hall ev (List.mem_cons_self ev tail)
    simp only [List.cons_append, providerCallsUnlocked, beq_self_eq_true,
      Bool.true_and]
    exact ih rest (fun e he => hall e (List.mem_cons_of_mem _ he))

/-- C10: every provider invocation in a `lookup` trace happens with no lock
held (the read lock is released before the provider loop, the write lock is
taken only after it); and two racing first-time lookups for the same name —
the snapshot of the second thread taken before the insert of the first thread, its
write applied after — both succeed, both return the handle the first thread
stored, and the cache afterwards holds exactly that one handle for the
name. -/
theorem C10_lock_discipline_and_convergence :
    (∀ (invoke : Invoke) (interfere : RegistryInner → RegistryInner)
       (st : RegistryInner) (name : String),
       providerCallsUnlocked (CodecsRegistry.lookup invoke interfere st name).events 0
         = true) ∧
    (∀ (invoke1 invoke2 : Invoke) (st : RegistryInner) (name : String)
       (c1 : PyCodec) (st1 : RegistryInner) (evs1 : List RegEvent)
       (c2 : PyCodec) (evs2 : List RegEvent),
       alistFind st.search_cache (normalizeName name) = Option.none →
       CodecsRegistry.lookup invoke1 id st name = ⟨.ok c1, st1, evs1⟩ →
       CodecsRegistry.runSearchPath invoke2 (PyObj.str (normalizeName name))
         st.search_path = (.ok (some c2), evs2) →
       (CodecsRegistry.lookup invoke2 (fun _ => st1) st name).result = .ok c1 ∧
       (CodecsRegistry.lookup invoke2 (fun _ => st1) st name).state = st1 ∧
       alistFind st1.search_cache (normalizeName name) = some c1) := by
  constructor
  · intro invoke interfere st name
    cases hfind : alistFind st.search_cache (normalizeName name) with
    | some c0 =>
      rw [lookup_fast_path invoke interfere st name c0 hfind]
      rfl
    | none =>
      cases hrun : CodecsRegistry.runSearchPath invoke
          (PyObj.str (normalizeName name)) st.search_path with
      | mk r evs2 =>
        have hall : ∀ ev ∈ evs2, ∃ f, ev = RegEvent.invokeProvider f := by
          have := runSearchPath_events_all_invoke invoke
            (PyObj.str (normalizeName name)) st.search_path
          rw [hrun] at this
          exact this
        cases r with
        | error e =>
          rw [lookup_miss_error invoke interfere st name e evs2 hfind hrun]
          show providerCallsUnlocked evs2 0 = true
          rw [← List.append_nil evs2,
            providerCallsUnlocked_invoke_block evs2 [] hall]
          rfl
        | ok o =>
          cases o with
          | none =>
            rw [lookup_miss_nomatch invoke interfere st name evs2 hfind hrun]
            show providerCallsUnlocked evs2 0 = true
            rw [← List.append_nil evs2,
              providerCallsUnlocked_invoke_block evs2 [] hall]
            rfl
          | some cp =>
            rw [lookup_miss_found invoke interfere st name cp evs2 hfind hrun]
            show providerCallsUnlocked
              (evs2 ++ [RegEvent.writeLock, RegEvent.writeUnlock]) 0 = true
            rw [providerCallsUnlocked_invoke_block evs2
              [RegEvent.writeLock, RegEvent.writeUnlock] hall]
            rfl
  · intro invoke1 invoke2 st name c1 st1 evs1 c2 evs2 hmiss hlk1 hrun2
    cases hrun1 : CodecsRegistry.runSearchPath invoke1
        (PyObj.str (normalizeName name)) st.search_path with
    | mk r1 evs1' =>
      cases r1 with
      | error e =>
        rw [lookup_miss_error invoke1 id st name e evs1' hmiss hrun1] at hlk1
        simp at hlk1
      | ok o =>
        cases o with
        | none =>
          rw [lookup_miss_nomatch invoke1 id st name evs1' hmiss hrun1] at hlk1
          simp at hlk1
        | some ca =>
          rw [lookup_miss_found invoke1 id st name ca evs1' hmiss hrun1] at hlk1
          simp only [id_eq, alistOrInsert, hmiss, CodecsRegistry.LookupOut.mk.injEq,
            Except.ok.injEq] at hlk1
          obtain ⟨h1, h2, h3⟩ := hlk1
          subst h1
          have hst1 : alistFind st1.search_cache (normalizeName name) = some ca := by
            rw [← h2]
            exact alistFind_insert_self st.search_cache (normalizeName name) ca
          have hlk2 := lookup_miss_found invoke2 (fun _ => st1) st name c2 evs2
            hmiss hrun2
          rw [hlk2]
          simp only [alistOrInsert, hst1]
          exact ⟨trivial, trivial, trivial⟩

/-- Closed instance of C10: the trace of a concrete miss-path lookup passes
the lock check, and a racing second lookup whose own provider produced a
different tuple still returns the handle the first thread cached. -/
def w2Invoke : Invoke := fun _ _ => .ok (PyObj.tuple 43 wCodecTuple)

theorem C10_lock_discipline_and_convergence_witness :
    providerCallsUnlocked (CodecsRegistry.lookup wInvoke id wSt "x").events 0 = true ∧
    (CodecsRegistry.lookup w2Invoke (fun _ => wSt1) wSt "x").result = .ok wCodec ∧
    (CodecsRegistry.lookup w2Invoke (fun _ => wSt1) wSt "x").state = wSt1 :=
  ⟨C10_lock_discipline_and_convergence.1 wInvoke id wSt "x",
    (C10_lock_discipline_and_convergence.2 wInvoke w2Invoke wSt "x" wCodec wSt1
      [RegEvent.readLock, RegEvent.readUnlock, RegEvent.invokeProvider wProvider,
        RegEvent.writeLock, RegEvent.writeUnlock]
      ⟨43, wCodecTuple⟩ [RegEvent.invokeProvider wProvider]
      (by rfl) (by rfl) (by rfl)).1,
    (C10_lock_discipline_and_convergence.2 wInvoke w2Invoke wSt "x" wCodec wSt1
      [RegEvent.readLock, RegEvent.readUnlock, RegEvent.invokeProvider wProvider,
        RegEvent.writeLock, RegEvent.writeUnlock]
      ⟨43, wCodecTuple⟩ [RegEvent.invokeProvider wProvider]
      (by rfl) (by rfl) (by rfl)).2.1⟩

/-! ## Claim C8 — normalization is idempotent -/

/-- C8: `normalize(normalize(x)) = normalize(x)` for every string. -/
theorem C8_normalize_idempotent :
    ∀ s : String, normalizeName (normalizeName s) = normalizeName s := by
  intro s
  show String.mk (normalizeList (String.mk (normalizeList s.data)).data) =
    String.mk (normalizeList s.data)
  rw [show (String.mk (normalizeList s.data)).data = normalizeList s.data from rfl,
    normalizeList_idem]

/-! ## Claim C3 — malformed provider and capability returns -/

/-- C3: a provider return value that is neither absent nor a 4-tuple makes
the conversion — and hence `lookup` — fail with a type error instead of
skipping the provider or treating it as no-match; and an encode/decode
capability return value that is not a 2-element tuple is a type error, while
a pair `(result, length)` yields `result` with the length discarded. -/
theorem C3_malformed_returns :
    (∀ res : PyObj, isNoneOr4Tuple res = false →
       tryFromObjectOptCodec res =
         .error (PyErr.typeError "codec search functions must return 4-tuples")) ∧
    (∀ (invoke : Invoke) (f : PyObj) (rest : List PyObj) (ename res : PyObj),
       invoke f [ename] = .ok res → isNoneOr4Tuple res = false →
       CodecsRegistry.runSearchPath invoke ename (f :: rest) =
         (.error (PyErr.typeError "codec search functions must return 4-tuples"),
          [RegEvent.invokeProvider f])) ∧
    (∀ (invoke : Invoke) (st : RegistryInner) (name : String) (e : PyErr)
       (evs : List RegEvent),
       alistFind st.search_cache (normalizeName name) = Option.none →
       CodecsRegistry.runSearchPath invoke (PyObj.str (normalizeName name))
         st.search_path = (.error e, evs) →
       (CodecsRegistry.lookup invoke id st name).result = .error e) ∧
    (∀ (invoke : Invoke) (c : PyCodec) (obj : PyObj) (errors : Option PyObj)
       (res : PyObj),
       invoke c.get_encode_func (capabilityArgs obj errors) = .ok res →
       (is2Tuple res = false →
          PyCodec.encode invoke c obj errors =
            .error (PyErr.typeError "encoder must return a tuple (object, integer)")) ∧
       (∀ (id0 : Nat) (a b : PyObj), res = PyObj.tuple id0 [a, b] →
          PyCodec.encode invoke c obj errors = .ok a)) ∧
    (∀ (invoke : Invoke) (c : PyCodec) (obj : PyObj) (errors : Option PyObj)
       (res : PyObj),
       invoke c.get_decode_func (capabilityArgs obj errors) = .ok res →
       (is2Tuple res = false →
          PyCodec.decode invoke c obj errors =
            .error (PyErr.typeError "decoder must return a tuple (object,integer)")) ∧
       (∀ (id0 : Nat) (a b : PyObj), res = PyObj.tuple id0 [a, b] →
          PyCodec.decode invoke c obj errors = .ok a)) := by
  refine ⟨?_, ?_, ?_, ?_, ?_⟩
  · intro res hres
    cases res <;> simp_all [isNoneOr4Tuple, tryFromObjectOptCodec]
  · intro invoke f rest ename res hi hres
    simp only [CodecsRegistry.runSearchPath, hi]
    cases res <;> simp_all [isNoneOr4Tuple, tryFromObjectOptCodec]
  · intro invoke st name e evs hmiss hrun
    rw [lookup_miss_error invoke id st name e evs hmiss hrun]
  · intro invoke c obj errors res hi
    constructor
    · intro hres
      simp only [PyCodec.encode, bind, Except.bind, hi]
      cases res <;> simp_all [is2Tuple]
    · rintro id0 a b rfl
      simp [PyCodec.encode, bind, Except.bind, hi]
  · intro invoke c obj errors res hi
    constructor
    · intro hres
      simp only [PyCodec.decode, bind, Except.bind, hi]
      cases res <;> simp_all [is2Tuple]
    · rintro id0 a b rfl
      simp [PyCodec.decode, bind, Except.bind, hi]

/-- Closed instance of C3: a provider returning a 3-tuple is a type error;
a capability returning `(res, 7)` yields `res`. -/
theorem C3_malformed_returns_witness :
    tryFromObjectOptCodec (PyObj.tuple 9 [PyObj.none, PyObj.none, PyObj.none]) =
      .error (PyErr.typeError "codec search functions must return 4-tuples") ∧
    PyCodec.encode (fun _ _ => .ok (PyObj.tuple 5 [PyObj.bytes [104, 105], PyObj.int 7]))
      wCodec (PyObj.str "hi") Option.none = .ok (PyObj.bytes [104, 105]) :=
  ⟨C3_malformed_returns.1 (PyObj.tuple 9 [PyObj.none, PyObj.none, PyObj.none]) (by decide),
    (C3_malformed_returns.2.2.2.1
      (fun _ _ => .ok (PyObj.tuple 5 [PyObj.bytes [104, 105], PyObj.int 7]))
      wCodec (PyObj.str "hi") Option.none
      (PyObj.tuple 5 [PyObj.bytes [104, 105], PyObj.int 7]) rfl).2 5
      (PyObj.bytes [104, 105]) (PyObj.int 7) rfl⟩

/-! ## Claim C7 — the five built-in handler names persist -/

/-- The invariant: every one of the five built-in names is bound. -/
def builtinsBound (st : RegistryInner) : Prop :=
  ∀ n ∈ builtinErrorNames, (CodecsRegistry.lookup_error_opt st n).isSome = true

theorem register_errors_eq (st : RegistryInner) (f : PyObj) :
    ((CodecsRegistry.register st f).2).errors = st.errors := by
  by_cases h : CodecsRegistry.isCallable f = true
  · simp [CodecsRegistry.register, h]
  · simp only [Bool.not_eq_true] at h
    simp [CodecsRegistry.register, h]

theorem lookup_state_errors_eq (invoke : Invoke) (st : RegistryInner)
    (name : String) :
    ((CodecsRegistry.lookup invoke id st name).state).errors = st.errors := by
  cases hfind : alistFind st.search_cache (normalizeName name) with
  | some c0 =>
    rw [lookup_fast_path invoke id st name c0 hfind]
  | none =>
    cases hrun : CodecsRegistry.runSearchPath invoke
        (PyObj.str (normalizeName name)) st.search_path with
    | mk r evs =>
      cases r with
      | error e =>
        rw [lookup_miss_error invoke id st name e evs hfind hrun]
        rfl
      | ok o =>
        cases o with
        | none =>
          rw [lookup_miss_nomatch invoke id st name evs hfind hrun]
          rfl
        | some cp =>
          rw [lookup_miss_found invoke id st name cp evs hfind hrun]
          rfl

theorem builtinsBound_applyOp (st : RegistryInner) (op : RegOp)
    (h : builtinsBound st) : builtinsBound (applyOp st op) := by
  cases op with
  | registerOp f =>
    intro n hn
    show (alistFind ((CodecsRegistry.register st f).2).errors n).isSome = true
    rw [register_errors_eq]
    exact h n hn
  | lookupOp invoke name =>
    intro n hn
    show (alistFind ((CodecsRegistry.lookup invoke id st name).state).errors n).isSome
      = true
    rw [lookup_state_errors_eq]
    exact h n hn
  | forgetOp name =>
    intro n hn
    exact h n hn
  | registerErrorOp name hd =>
    intro n hn
    show (alistFind (alistInsert st.errors name hd) n).isSome = true
    exact alistFind_insert_isSome st.errors name n hd (h n hn)
  | lookupErrorOp name =>
    intro n hn
    exact h n hn

theorem builtinsBound_applyOps (ops : List RegOp) (st : RegistryInner)
    (h : builtinsBound st) : builtinsBound (applyOps st ops) := by
  induction ops generalizing st with
  | nil => exact h
  | cons op rest ih =>
    exact ih (applyOp st op) (builtinsBound_applyOp st op h)

/-- C7: after construction and after any sequence of register / lookup /
forget / register_error / lookup_error operations, each of the five built-in
handler names is still bound — no operation removes an entry; and
`register_error` overwrites in place, returning the previously bound handler
and installing the new one, so `register_error("strict", h)` on any reachable
state returns a previous, non-absent handler. -/
theorem C7_builtin_handlers_persist :
    (∀ (ops : List RegOp), ∀ n ∈ builtinErrorNames,
       (CodecsRegistry.lookup_error_opt (applyOps newRegistry ops) n).isSome = true) ∧
    (∀ (st : RegistryInner) (name : String) (h : PyObj),
       (CodecsRegistry.register_error st name h).1 =
         CodecsRegistry.lookup_error_opt st name ∧
       CodecsRegistry.lookup_error_opt (CodecsRegistry.register_error st name h).2 name
         = some h) ∧
    (∀ (ops : List RegOp) (h : PyObj),
       ((CodecsRegistry.register_error (applyOps newRegistry ops) "strict" h).1).isSome
         = true) := by
  have hinit : builtinsBound newRegistry := by
    intro n hn
    simp only [builtinErrorNames, List.mem_cons, List.not_mem_nil, or_false] at hn
    rcases hn with rfl | rfl | rfl | rfl | rfl <;> rfl
  refine ⟨?_, ?_, ?_⟩
  · intro ops
    exact builtinsBound_applyOps ops newRegistry hinit
  · intro st name h
    refine ⟨rfl, ?_⟩
    show alistFind (alistInsert st.errors name h) name = some h
    exact alistFind_insert_self st.errors name h
  · intro ops h
    show (alistFind (applyOps newRegistry ops).errors "strict").isSome = true
    exact builtinsBound_applyOps ops newRegistry hinit "strict" (by decide)

/-- Closed instance of C7: after a register_error overwriting "ignore" and a
forget, "strict" is still bound, and overwriting "strict" returns the
original built-in handler. -/
theorem C7_builtin_handlers_persist_witness :
    (CodecsRegistry.lookup_error_opt
      (applyOps newRegistry
        [RegOp.registerErrorOp "ignore" (PyObj.func 99 "h"),
         RegOp.forgetOp "utf-8"]) "strict").isSome = true ∧
    ((CodecsRegistry.register_error newRegistry "strict" (PyObj.func 99 "h")).1).isSome
      = true :=
  ⟨C7_builtin_handlers_persist.1
    [RegOp.registerErrorOp "ignore" (PyObj.func 99 "h"), RegOp.forgetOp "utf-8"]
    "strict" (by decide),
   C7_builtin_handlers_persist.2.2 [] (PyObj.func 99 "h")⟩

/-! ## Claim C6 — text-strict encode/decode -/

/-- C6: `encode_text`/`decode_text` resolve through `_lookup_text_encoding`,
which fails with a lookup error directing the caller to the generic entry
point when the is-text-codec predicate of the resolved codec is false and passes
the codec through when it is true; and a capability result of the wrong
concrete kind — not bytes for `encode_text`, not text for `decode_text` —
fails with a type error naming the encoding and the offending kind, while a
result of the right kind is returned. -/
theorem C6_text_strict_forms :
    (∀ (invoke : Invoke) (getAttrOpt : GetAttrOpt) (boolval : Boolval)
       (interfere : RegistryInner → RegistryInner) (st : RegistryInner)
       (encoding generic_func : String) (c : PyCodec),
       (CodecsRegistry.lookup invoke interfere st encoding).result = .ok c →
       (PyCodec.is_text_codec getAttrOpt boolval c = .ok false →
          CodecsRegistry._lookup_text_encoding invoke getAttrOpt boolval
            interfere st encoding generic_func =
            (.error (PyErr.lookupError ("\x27" ++ encoding ++
              "\x27 is not a text encoding; use " ++ generic_func ++
              " to handle arbitrary codecs")),
             (CodecsRegistry.lookup invoke interfere st encoding).state)) ∧
       (PyCodec.is_text_codec getAttrOpt boolval c = .ok true →
          CodecsRegistry._lookup_text_encoding invoke getAttrOpt boolval
            interfere st encoding generic_func =
            (.ok c, (CodecsRegistry.lookup invoke interfere st encoding).state))) ∧
    (∀ (invoke : Invoke) (getAttrOpt : GetAttrOpt) (boolval : Boolval)
       (interfere : RegistryInner → RegistryInner) (st : RegistryInner)
       (obj : String) (encoding : String) (errors : Option PyObj) (c : PyCodec)
       (st' : RegistryInner) (res : PyObj),
       CodecsRegistry._lookup_text_encoding invoke getAttrOpt boolval interfere
         st encoding "codecs.encode()" = (.ok c, st') →
       PyCodec.encode invoke c (PyObj.str obj) errors = .ok res →
       (isBytesObj res = false →
          CodecsRegistry.encode_text invoke getAttrOpt boolval interfere st obj
            encoding errors =
            (.error (PyErr.typeError ("\x27" ++ encoding ++
              "\x27 encoder returned \x27" ++ res.className ++
              "\x27 instead of \x27bytes\x27; use codecs.encode() to encode arbitrary types")),
             st')) ∧
       (∀ b : List Nat, res = PyObj.bytes b →
          CodecsRegistry.encode_text invoke getAttrOpt boolval interfere st obj
            encoding errors = (.ok b, st'))) ∧
    (∀ (invoke : Invoke) (getAttrOpt : GetAttrOpt) (boolval : Boolval)
       (interfere : RegistryInner → RegistryInner) (st : RegistryInner)
       (obj : PyObj) (encoding : String) (errors : Option PyObj) (c : PyCodec)
       (st' : RegistryInner) (res : PyObj),
       CodecsRegistry._lookup_text_encoding invoke getAttrOpt boolval interfere
         st encoding "codecs.decode()" = (.ok c, st') →
       PyCodec.decode invoke c obj errors = .ok res →
       (isStrObj res = false →
          CodecsRegistry.decode_text invoke getAttrOpt boolval interfere st obj
            encoding errors =
            (.error (PyErr.typeError ("\x27" ++ encoding ++
              "\x27 decoder returned \x27" ++ res.className ++
              "\x27 instead of \x27str\x27; use codecs.decode() to encode arbitrary types")),
             st')) ∧
       (∀ t : String, res = PyObj.str t →
          CodecsRegistry.decode_text invoke getAttrOpt boolval interfere st obj
            encoding errors = (.ok t, st'))) := by
  refine ⟨?_, ?_, ?_⟩
  · intro invoke getAttrOpt boolval interfere st encoding generic_func c hres
    constructor
    · intro htext
      simp only [CodecsRegistry._lookup_text_encoding, hres, htext]
    · intro htext
      simp only [CodecsRegistry._lookup_text_encoding, hres, htext]
  · intro invoke getAttrOpt boolval interfere st obj encoding errors c st' res
      hlt henc
    constructor
    · intro hres
      simp only [CodecsRegistry.encode_text, hlt, henc]
      cases res <;> simp_all [isBytesObj, PyObj.className]
    · rintro b rfl
      simp only [CodecsRegistry.encode_text, hlt, henc]
  · intro invoke getAttrOpt boolval interfere st obj encoding errors c st' res
      hlt hdec
    constructor
    · intro hres
      simp only [CodecsRegistry.decode_text, hlt, hdec]
      cases res <;> simp_all [isStrObj, PyObj.className]
    · rintro t rfl
      simp only [CodecsRegistry.decode_text, hlt, hdec]

/-- Oracles for the C6 witness: no `_is_text_encoding` marker (text codec by
default), a marker bound to `False`, and truthiness on booleans. -/
def getAttrOptAbsent : GetAttrOpt := fun _ _ => .ok Option.none

def getAttrOptFalse : GetAttrOpt := fun _ _ => .ok (some (PyObj.bool false))

def boolvalSimple : Boolval := fun v =>
  match v with
  | PyObj.bool b => .ok b
  | _ => .ok true

def wEncInvoke : Invoke := fun _ _ =>
  .ok (PyObj.tuple 7 [PyObj.bytes [1, 2], PyObj.int 2])

theorem C6_text_strict_forms_witness :
    CodecsRegistry._lookup_text_encoding wInvoke getAttrOptFalse boolvalSimple
      id wSt1 "x" "codecs.encode()" =
      (.error (PyErr.lookupError
        "\x27x\x27 is not a text encoding; use codecs.encode() to handle arbitrary codecs"),
       wSt1) ∧
    CodecsRegistry.encode_text wEncInvoke getAttrOptAbsent boolvalSimple id wSt1
      "hi" "x" Option.none = (.ok [1, 2], wSt1) :=
  ⟨((C6_text_strict_forms.1 wInvoke getAttrOptFalse boolvalSimple id wSt1 "x"
      "codecs.encode()" wCodec rfl).1 rfl),
   ((C6_text_strict_forms.2.1 wEncInvoke getAttrOptAbsent boolvalSimple id wSt1
      "hi" "x" Option.none wCodec wSt1 (PyObj.bytes [1, 2]) rfl rfl).2 [1, 2] rfl)⟩

/-! ## Claim C4 — the replace handler -/

theorem runRes_bind_def (x : RunRes α) (f : α → RunRes β) :
    x >>= f = RunRes.bind x f := rfl

/-- C4: for an error description with integer `start`/`end` attributes, the
replace handler returns a single U+FFFD with resume-offset `end` on a
decode-error regardless of span width, `"?"` repeated `end - start` times on
an encode-error, U+FFFD repeated `end - start` times on a translate-error,
and a type error naming the unsupported kind on anything that is none of the
three. -/
theorem C4_replace_errors_behavior :
    ∀ (d : ExcDesc) (s e : Nat),
      d.startAttr = PyObj.int s → d.endAttr = PyObj.int e →
      ((d.isUnicodeEncodeError = false → d.isUnicodeDecodeError = true →
          replace_errors d = .ok ("�", e)) ∧
       (d.isUnicodeEncodeError = true → s ≤ e →
          replace_errors d = .ok (strRepeat "?" (e - s), e)) ∧
       (d.isUnicodeEncodeError = false → d.isUnicodeDecodeError = false →
          d.isUnicodeTranslateError = true → s ≤ e →
          replace_errors d = .ok (strRepeat "�" (e - s), e)) ∧
       (d.isUnicodeEncodeError = false → d.isUnicodeDecodeError = false →
          d.isUnicodeTranslateError = false →
          replace_errors d =
            .err (PyErr.typeError ("don\x27t know how to handle " ++ d.cls ++
              " in error callback")))) := by
  intro d s e hs he
  refine ⟨?_, ?_, ?_, ?_⟩
  · intro henc hdec
    simp [replace_errors, henc, hdec, bind, RunRes.bind, RunRes.ofExcept,
      extract_unicode_error_range, usizeTryFromObject, hs, he, Except.bind,
      Int.natCast_nonneg, Int.toNat_natCast]
  · intro henc hse
    simp [replace_errors, henc, bind, RunRes.bind, RunRes.ofExcept,
      extract_unicode_error_range, usizeTryFromObject, hs, he, Except.bind,
      Int.natCast_nonneg, Int.toNat_natCast, usizeSub, hse]
  · intro henc hdec htr
    intro hse
    simp [replace_errors, henc, hdec, htr, bind, RunRes.bind, RunRes.ofExcept,
      extract_unicode_error_range, usizeTryFromObject, hs, he, Except.bind,
      Int.natCast_nonneg, Int.toNat_natCast, usizeSub, hse]
  · intro henc hdec htr
    simp [replace_errors, henc, hdec, htr, bad_err_type]

/-- Closed instance of C4: the spec example — an encode-error with range
`[0,3)` gives `("???", 3)` — and a decode-error with a wide range still
gives a single replacement character. -/
def wEncDesc : ExcDesc :=
  { cls := "UnicodeEncodeError", isUnicodeEncodeError := true,
    isUnicodeDecodeError := false, isUnicodeTranslateError := false,
    startAttr := PyObj.int 0, endAttr := PyObj.int 3,
    objectAttr := PyObj.str "abc" }

def wDecDesc : ExcDesc :=
  { cls := "UnicodeDecodeError", isUnicodeEncodeError := false,
    isUnicodeDecodeError := true, isUnicodeTranslateError := false,
    startAttr := PyObj.int 2, endAttr := PyObj.int 5,
    objectAttr := PyObj.bytes [0, 1, 2, 3, 4, 5] }

theorem C4_replace_errors_behavior_witness :
    replace_errors wEncDesc = .ok ("???", 3) ∧
    replace_errors wDecDesc = .ok ("�", 5) := by
  constructor
  · have h := (C4_replace_errors_behavior wEncDesc 0 3 rfl rfl).2.1 rfl (by decide)
    rw [h]
    rfl
  · exact (C4_replace_errors_behavior wDecDesc 2 5 rfl rfl).1 rfl rfl

/-! ## Claim C5 — the backslashreplace handler -/

/-- The escape table exactly as worded in the claim: `\\xHH` below 0x100,
`\\uHHHH` below 0x10000, `\\UHHHHHHHH` otherwise. -/
def backslashEscapeCharSpec (c : Char) : String :=
  if c.toNat < 0x100 then "\\x" ++ natToHexPad c.toNat 2
  else if c.toNat < 0x10000 then "\\u" ++ natToHexPad c.toNat 4
  else "\\U" ++ natToHexPad c.toNat 8

theorem backslashEscapeChar_cases (c : Char) :
    backslashEscapeChar c = backslashEscapeCharSpec c := by
  simp only [backslashEscapeChar, backslashEscapeCharSpec]
  split_ifs <;> first | rfl | omega

/-- C5: on a decode-error with an in-bounds range, backslashreplace emits
`\xHH` (two lowercase hex digits) for each byte of the span and resumes at
`end`; on an encode/translate-error with an in-bounds range it emits `\xHH`
below 0x100, `\uHHHH` below 0x10000 and `\UHHHHHHHH` otherwise for each
character of the span, resuming at `end`; and the two-digit escapes are
well-formed lowercase hex. -/
theorem C5_backslashreplace_behavior :
    (∀ (d : ExcDesc) (s e : Nat) (b : List Nat),
       d.isUnicodeDecodeError = true →
       d.startAttr = PyObj.int s → d.endAttr = PyObj.int e →
       d.objectAttr = PyObj.bytes b → s ≤ e → e ≤ b.length →
       backslashreplace_errors d =
         .ok (String.join (((b.take e).drop s).map
           (fun byte => "\\x" ++ natToHexPad byte 2)), e)) ∧
    (∀ (d : ExcDesc) (s e : Nat) (txt : String),
       d.isUnicodeDecodeError = false → is_encode_ish_err d = true →
       d.startAttr = PyObj.int s → d.endAttr = PyObj.int e →
       d.objectAttr = PyObj.str txt → s ≤ e → e ≤ txt.data.length →
       backslashreplace_errors d =
         .ok (String.join (((txt.data.take e).drop s).map backslashEscapeCharSpec),
           e)) ∧
    (∀ n : Nat, n < 256 →
       (natToHexPad n 2).length = 2 ∧
       ∀ ch ∈ (natToHexPad n 2).data, ch ∈ hexAlphabet) := by
  refine ⟨?_, ?_, by decide⟩
  · intro d s e b hdec hs he hobj hse hel
    simp [backslashreplace_errors, is_decode_err, hdec, bind, RunRes.bind,
      RunRes.ofExcept, extract_unicode_error_range, usizeTryFromObject, hs, he,
      hobj, bytesTryFromObject, Except.bind, Int.natCast_nonneg,
      Int.toNat_natCast, sliceIndexRange, hse, hel]
  · intro d s e txt hdec hench hs he hobj hse hel
    have hsl : s ≤ txt.data.length := le_trans hse hel
    simp [backslashreplace_errors, is_decode_err, hdec, hench, bind,
      RunRes.bind, RunRes.ofExcept, extract_unicode_error_range,
      usizeTryFromObject, hs, he, hobj, strTryFromObject, Except.bind,
      Int.natCast_nonneg, Int.toNat_natCast, tryGetCharsFrom,
      (show s ≤ txt.length from hsl), List.map_take, List.map_drop,
      List.drop_take]
    exact congrArg (fun l => String.join (List.take (e - s) (List.drop s l)))
      (List.map_eq_map_iff.mpr (fun c _ => backslashEscapeChar_cases c))

/-- Closed instance of C5: the spec example — a decode-error over bytes
`[0xff, 0xfe]` at range `[0,2)` gives `("\xff\xfe", 2)` — and an
encode-error over `"aé€"`-like codepoints producing the three escape
widths. -/
def w5DecDesc : ExcDesc :=
  { cls := "UnicodeDecodeError", isUnicodeEncodeError := false,
    isUnicodeDecodeError := true, isUnicodeTranslateError := false,
    startAttr := PyObj.int 0, endAttr := PyObj.int 2,
    objectAttr := PyObj.bytes [0xff, 0xfe] }

theorem C5_backslashreplace_behavior_witness :
    backslashreplace_errors w5DecDesc = .ok ("\\xff\\xfe", 2) := by
  have h := C5_backslashreplace_behavior.1 w5DecDesc 0 2 [0xff, 0xfe]
    rfl rfl rfl rfl (by decide) (by decide)
  rw [h]
  rfl

/-! ## Claim C9 — out-of-range and non-integer attributes (corrected)

The claim as stated fails on the code: a decode-error whose integer range
reaches past the bytes object does not surface a propagated error — the
byte-slice indexing `&b[range]` aborts.  (The character-based handlers
instead clamp the span to the characters that exist.)  What does hold is the
non-integer part: a `start` or `end` attribute that fails integer conversion
makes every range-extracting handler propagate exactly that conversion
failure. -/

/-- A decode-error over 2 bytes claiming range `[0,5)`: the code panics. -/
def c9OutOfRangeDesc : ExcDesc :=
  { cls := "UnicodeDecodeError", isUnicodeEncodeError := false,
    isUnicodeDecodeError := true, isUnicodeTranslateError := false,
    startAttr := PyObj.int 0, endAttr := PyObj.int 5,
    objectAttr := PyObj.bytes [0xff, 0xfe] }

/-- C9 counterexample: on an out-of-range (but integer) span,
`backslashreplace` aborts instead of returning a propagated error. -/
theorem C9_counterexample_backslashreplace_panics :
    backslashreplace_errors c9OutOfRangeDesc = RunRes.panicked := by rfl

/-- The handlers feed the extracted characters through
`unwrap_or("") .. take`, so the span is the characters that exist:
dropping past the end already yields the empty list. -/
theorem tryGetCharsFrom_getD (l : List Char) (s : Nat) :
    (tryGetCharsFrom l s).getD [] = l.drop s := by
  unfold tryGetCharsFrom
  split
  · rfl
  · rw [List.drop_eq_nil_of_le (by omega)]
    rfl

/-- C9 (amended): a `start` or `end` attribute that fails integer conversion
fails the range extraction with exactly that conversion failure, and every
range-extracting handler — ignore, replace, xmlcharrefreplace,
backslashreplace — propagates it on each error kind it supports, translate
included; but integer ranges outside the referenced object are not surfaced
as propagated errors: on a decode-error whose range is inverted or reaches
past the bytes, backslashreplace aborts, while the character-based handlers
(xmlcharrefreplace and backslashreplace on encode/translate-errors) clamp
any integer span to the characters that exist and return a replacement. -/
theorem C9_range_extraction_amended :
    (∀ (d : ExcDesc) (p : PyErr),
       (usizeTryFromObject d.startAttr = .error p →
          extract_unicode_error_range d = .error p) ∧
       (∀ s : Nat, usizeTryFromObject d.startAttr = .ok s →
          usizeTryFromObject d.endAttr = .error p →
          extract_unicode_error_range d = .error p)) ∧
    (∀ (d : ExcDesc) (p : PyErr),
       extract_unicode_error_range d = .error p →
       ((is_encode_ish_err d = true ∨ is_decode_err d = true →
           ignore_errors d = .err p) ∧
        (d.isUnicodeEncodeError = true ∨ d.isUnicodeDecodeError = true ∨
            d.isUnicodeTranslateError = true →
           replace_errors d = .err p) ∧
        (is_encode_ish_err d = true → xmlcharrefreplace_errors d = .err p) ∧
        (is_decode_err d = true ∨ is_encode_ish_err d = true →
           backslashreplace_errors d = .err p))) ∧
    (∀ (d : ExcDesc) (s e : Nat) (b : List Nat),
       d.isUnicodeDecodeError = true →
       d.startAttr = PyObj.int s → d.endAttr = PyObj.int e →
       d.objectAttr = PyObj.bytes b → ¬(s ≤ e ∧ e ≤ b.length) →
       backslashreplace_errors d = RunRes.panicked) ∧
    (∀ (d : ExcDesc) (s e : Nat) (txt : String),
       is_encode_ish_err d = true →
       d.startAttr = PyObj.int s → d.endAttr = PyObj.int e →
       d.objectAttr = PyObj.str txt →
       xmlcharrefreplace_errors d =
         .ok (String.join (((txt.data.drop s).take (e - s)).map
           (fun c => "&#" ++ toString c.toNat ++ ";")), e) ∧
       (is_decode_err d = false →
          backslashreplace_errors d =
            .ok (String.join (((txt.data.drop s).take (e - s)).map
              backslashEscapeCharSpec), e))) := by
  refine ⟨?_, ?_, ?_, ?_⟩
  · intro d p
    constructor
    · intro hp
      simp [extract_unicode_error_range, hp, bind, Except.bind]
    · intro s hs hp
      simp [extract_unicode_error_range, hs, hp, bind, Except.bind]
  · intro d p hx
    refine ⟨?_, ?_, ?_, ?_⟩
    · intro hkind
      have hcond : (is_encode_ish_err d || is_decode_err d) = true := by
        rcases hkind with h | h <;> simp [h]
      simp [ignore_errors, hcond, hx, bind, RunRes.bind, RunRes.ofExcept]
    · intro hkind
      cases henc : d.isUnicodeEncodeError with
      | true =>
        simp [replace_errors, henc, hx, bind, RunRes.bind, RunRes.ofExcept]
      | false =>
        cases hdec : d.isUnicodeDecodeError with
        | true =>
          simp [replace_errors, henc, hdec, hx, bind, RunRes.bind,
            RunRes.ofExcept]
        | false =>
          have htr : d.isUnicodeTranslateError = true := by
            rcases hkind with h | h | h
            · rw [h] at henc; exact absurd henc (by simp)
            · rw [h] at hdec; exact absurd hdec (by simp)
            · exact h
          simp [replace_errors, henc, hdec, htr, hx, bind, RunRes.bind,
            RunRes.ofExcept]
    · intro hench
      simp [xmlcharrefreplace_errors, hench, hx, bind, RunRes.bind,
        RunRes.ofExcept]
    · intro hkind
      cases hdec : d.isUnicodeDecodeError with
      | true =>
        simp [backslashreplace_errors, is_decode_err, hdec, hx, bind,
          RunRes.bind, RunRes.ofExcept]
      | false =>
        have hench : is_encode_ish_err d = true := by
          rcases hkind with h | h
          · rw [is_decode_err, hdec] at h; exact absurd h (by simp)
          · exact h
        simp [backslashreplace_errors, is_decode_err, hdec, hench, hx, bind,
          RunRes.bind, RunRes.ofExcept]
  · intro d s e b hdec hs he hobj hbad
    simp [backslashreplace_errors, is_decode_err, hdec, bind, RunRes.bind,
      RunRes.ofExcept, extract_unicode_error_range, usizeTryFromObject, hs, he,
      hobj, bytesTryFromObject, Except.bind, Int.natCast_nonneg,
      Int.toNat_natCast, sliceIndexRange, hbad]
  · intro d s e txt hench hs he hobj
    constructor
    · simp [xmlcharrefreplace_errors, hench, bind, RunRes.bind,
        RunRes.ofExcept, extract_unicode_error_range, usizeTryFromObject, hs,
        he, hobj, strTryFromObject, Except.bind, Int.natCast_nonneg,
        Int.toNat_natCast, tryGetCharsFrom_getD, List.map_take, List.map_drop]
    · intro hdec
      have hdec' : d.isUnicodeDecodeError = false := hdec
      simp [backslashreplace_errors, is_decode_err, hdec', hench, bind,
        RunRes.bind, RunRes.ofExcept, extract_unicode_error_range,
        usizeTryFromObject, hs, he, hobj, strTryFromObject, Except.bind,
        Int.natCast_nonneg, Int.toNat_natCast, tryGetCharsFrom_getD,
        List.map_take, List.map_drop]
      exact congrArg (fun l => String.join (List.take (e - s) (List.drop s l)))
        (List.map_eq_map_iff.mpr (fun c _ => backslashEscapeChar_cases c))

/-- A translate-error whose `end` attribute is a string: the conversion
failure of `end` (after a `start` that converts) propagates through
replace. -/
def c9TrBadEndDesc : ExcDesc :=
  { cls := "UnicodeTranslateError", isUnicodeEncodeError := false,
    isUnicodeDecodeError := false, isUnicodeTranslateError := true,
    startAttr := PyObj.int 1, endAttr := PyObj.str "five",
    objectAttr := PyObj.str "abc" }

/-- An encode-error over the single character `"é"` claiming range `[0,3)`:
the character-based handlers clamp to that one character. -/
def c9ClampDesc : ExcDesc :=
  { cls := "UnicodeEncodeError", isUnicodeEncodeError := true,
    isUnicodeDecodeError := false, isUnicodeTranslateError := false,
    startAttr := PyObj.int 0, endAttr := PyObj.int 3,
    objectAttr := PyObj.str "é" }

theorem C9_range_extraction_amended_witness :
    replace_errors c9TrBadEndDesc =
      .err (PyErr.typeError
        "\x27str\x27 object cannot be interpreted as an integer") ∧
    backslashreplace_errors c9ClampDesc = .ok ("\\xe9", 3) := by
  constructor
  · exact (C9_range_extraction_amended.2.1 c9TrBadEndDesc
      (PyErr.typeError "\x27str\x27 object cannot be interpreted as an integer")
      rfl).2.1 (Or.inr (Or.inr rfl))
  · have h := ((C9_range_extraction_amended.2.2.2 c9ClampDesc 0 3 "é"
      rfl rfl rfl rfl).2 rfl)
    rw [h]
    rfl

end Codecs
